import Mathlib

/-!
Verification development for the worklog MCP server
(`src/plugins/worklog/mcp/src/worklog_mcp/`): the dual-backend database
abstraction, the whitelist-based query validators, the wildcard escaper,
the dynamic query assembler, the schema initializer, the memory store,
the configuration resolver and the relationship-graph traversal.

Python strings are modelled as lists of characters (`Str := List Char`);
Python `int` is modelled as `Int` (arbitrary precision in both);
`None`-able values as `Option`; a Python exception escaping a function is
modelled as an explicit alternative of the result type.  Each definition
below is a direct transcription of the corresponding Python function,
named after it.
-/

/-- Python `str`, modelled as its list of characters. -/
abbrev Str := List Char

/-- Coercion from a Lean string literal to the model type. -/
def str (s : String) : Str := s.data

/-- Python `str.isspace` on one character / the whitespace class used by
`str.strip()` and `str.split()`. -/
def isSpaceChar (c : Char) : Bool := c.isWhitespace

/-- Leading-whitespace removal (first half of Python `str.strip()`). -/
def dropLeadingSpaces (s : Str) : Str := s.dropWhile isSpaceChar

/-- Trailing-whitespace removal (second half of Python `str.strip()`). -/
def dropTrailingSpaces : Str → Str
  | [] => []
  | c :: rest =>
    let r := dropTrailingSpaces rest
    if r.isEmpty then (if isSpaceChar c then [] else [c]) else c :: r

/-- Python `str.strip()`. -/
def trimStr (s : Str) : Str := dropTrailingSpaces (dropLeadingSpaces s)

/-- Python `str.lower()` (ASCII-adequate model). -/
def lowerStr (s : Str) : Str := s.map Char.toLower

/-- Python `str.upper()` (ASCII-adequate model). -/
def upperStr (s : Str) : Str := s.map Char.toUpper

/-- Python `str.split(",")`: splits at every comma, keeping empty pieces. -/
def splitOnComma : Str → List Str
  | [] => [[]]
  | c :: rest =>
    if c = ',' then [] :: splitOnComma rest
    else
      match splitOnComma rest with
      | [] => [[c]]
      | t :: ts => (c :: t) :: ts

/-- Helper for `splitWhitespace`: accumulates the current word (reversed). -/
def wordsAux : Str → Str → List Str
  | [], cur => if cur.isEmpty then [] else [cur.reverse]
  | c :: rest, cur =>
    if isSpaceChar c then
      if cur.isEmpty then wordsAux rest [] else cur.reverse :: wordsAux rest []
    else wordsAux rest (c :: cur)

/-- Python `str.split()` with no argument: splits on whitespace runs and
drops empty pieces. -/
def splitWhitespace (s : Str) : List Str := wordsAux s []

/-- Lexicographic strict order on strings (Python `<` on `str`,
code-point-wise). -/
def strLtB : Str → Str → Bool
  | [], [] => false
  | [], _ :: _ => true
  | _ :: _, [] => false
  | a :: as, b :: bs => if a < b then true else if b < a then false else strLtB as bs

/-- Stable insertion used by `sortStrs`. -/
def insertSorted (x : Str) : List Str → List Str
  | [] => [x]
  | y :: ys => if strLtB y x then y :: insertSorted x ys else x :: y :: ys

/-- Python `sorted` on a collection of strings (stable, ascending). -/
def sortStrs : List Str → List Str
  | [] => []
  | x :: xs => insertSorted x (sortStrs xs)

/-- Python `repr` of one string: the string wrapped in single quotes
(escaping inside the string is irrelevant for the inputs used here). -/
def pyQuote (s : Str) : Str := '\x27' :: s ++ ['\x27']

/-- Python `repr`/f-string rendering of a list of strings,
for example a two-element list renders as `[\x27a\x27, \x27b\x27]`. -/
def pyReprStrList (l : List Str) : Str :=
  '[' :: List.intercalate (str ", ") (l.map pyQuote) ++ [']']

/-- Python `needle in haystack` helper: is the first list a prefix of the
second. -/
def isPrefixOfStr : Str → Str → Bool
  | [], _ => true
  | _ :: _, [] => false
  | a :: as, b :: bs => a = b && isPrefixOfStr as bs

/-- Python `needle in haystack` substring test. -/
def hasSubstr (needle : Str) : Str → Bool
  | [] => isPrefixOfStr needle []
  | c :: rest => isPrefixOfStr needle (c :: rest) || hasSubstr needle rest

/-!
## Column whitelists (`server.py`, `TABLE_COLUMNS` / `VALID_TABLES`)
-/

/-- `TABLE_COLUMNS` from `server.py`: the per-table column whitelist
(a Python dict of frozensets, modelled as an association list). -/
def TABLE_COLUMNS : List (Str × List Str) := [
  (str "memories", [str "id", str "key", str "content", str "summary",
    str "memory_type", str "importance", str "status", str "tags",
    str "source_agent", str "system", str "access_count",
    str "last_accessed", str "promoted_at", str "created_at"]),
  (str "knowledge_base", [str "id", str "category", str "title", str "content",
    str "tags", str "source_agent", str "system", str "is_protocol",
    str "created_at", str "updated_at", str "source_url"]),
  (str "entries", [str "id", str "timestamp", str "agent", str "task_type",
    str "title", str "details", str "decision_rationale", str "outcome",
    str "tags", str "related_files"]),
  (str "research", [str "id", str "source_type", str "title", str "summary",
    str "key_points", str "relevance_score", str "tags", str "status",
    str "created_at"]),
  (str "agent_chat", [str "id", str "from_agent", str "to_agent", str "message",
    str "context", str "priority", str "status", str "parent_id",
    str "response", str "created_at", str "read_at", str "resolved_at"]),
  (str "issues", [str "id", str "project", str "title", str "description",
    str "status", str "tags", str "source_agent", str "created_at"]),
  (str "error_patterns", [str "id", str "error_signature", str "error_message",
    str "platform", str "language", str "root_cause", str "resolution",
    str "prevention_tip", str "tags", str "created_at"]),
  (str "tag_taxonomy", [str "id", str "canonical_tag", str "aliases",
    str "category", str "description", str "usage_count", str "created_at",
    str "updated_at"]),
  (str "relationships", [str "id", str "source_table", str "source_id",
    str "target_table", str "target_id", str "relationship_type",
    str "confidence", str "bidirectional", str "created_by", str "created_at"]),
  (str "topic_index", [str "id", str "topic_name", str "summary",
    str "full_summary", str "key_terms", str "content_size", str "entry_count",
    str "last_curated", str "created_at", str "updated_at"]),
  (str "topic_entries", [str "id", str "topic_id", str "entry_table",
    str "entry_id", str "relevance_score", str "added_at"]),
  (str "duplicate_candidates", [str "id", str "entry1_table", str "entry1_id",
    str "entry2_table", str "entry2_id", str "similarity_score",
    str "detection_method", str "status", str "reviewed_by", str "reviewed_at",
    str "merge_target_id", str "created_at"]),
  (str "promotion_history", [str "id", str "memory_id", str "from_status",
    str "to_status", str "reason", str "score_snapshot", str "promoted_by",
    str "created_at"]),
  (str "curation_history", [str "id", str "run_at", str "operation",
    str "agent", str "stats", str "duration_seconds", str "success",
    str "error_message"])
]

/-- `VALID_TABLES` from `server.py` (the keys of `TABLE_COLUMNS`). -/
def VALID_TABLES : List Str := TABLE_COLUMNS.map (fun p => p.1)

/-- `TABLE_COLUMNS.get(table, set())` from `server.py`. -/
def allowedColumns (table : Str) : List Str :=
  ((TABLE_COLUMNS.find? (fun p => p.1 = table)).map (fun p => p.2)).getD []

/-!
## `_escape_search_wildcards` (`server.py` lines 105-118)
-/

/-- Python `str.replace` of a single character by a string
(all occurrences, left to right). -/
def replaceChar (target : Char) (repl : Str) : Str → Str
  | [] => []
  | c :: rest =>
    if c = target then repl ++ replaceChar target repl rest
    else c :: replaceChar target repl rest

/-- `_escape_search_wildcards` from `server.py`: escape backslash first,
then the two LIKE wildcards, then wrap in `%...%`. -/
def escapeSearchWildcards (term : Str) : Str :=
  let t1 := replaceChar '\\' (str "\\\\") term
  let t2 := replaceChar '%' (str "\\%") t1
  let t3 := replaceChar '_' (str "\\_") t2
  str "%" ++ t3 ++ str "%"

/-!
## `_validate_columns` (`server.py` lines 121-141)
-/

/-- The list `requested` in `_validate_columns`:
`[c.strip().lower() for c in columns.split(",")]`. -/
def requestedTokens (columns : Str) : List Str :=
  (splitOnComma columns).map (fun c => lowerStr (trimStr c))

/-- The list `invalid` in `_validate_columns`:
requested tokens not in the table whitelist. -/
def invalidTokens (columns table : Str) : List Str :=
  (requestedTokens columns).filter (fun c => !(allowedColumns table).contains c)

/-- The f-string `"Invalid columns: {invalid}. Allowed: {sorted(allowed)}"`. -/
def invalidColumnsMsg (invalid : List Str) (table : Str) : Str :=
  str "Invalid columns: " ++ pyReprStrList invalid ++ str ". Allowed: " ++
    pyReprStrList (sortStrs (allowedColumns table))

/-- `_validate_columns(columns, table)` from `server.py`: returns
`(is_valid, error_message_or_sanitized_columns)`. -/
def validateColumns (columns table : Str) : Bool × Str :=
  if trimStr columns = str "*" then (true, str "*")
  else
    let invalid := invalidTokens columns table
    if invalid ≠ [] then (false, invalidColumnsMsg invalid table)
    else (true, List.intercalate (str ", ") (requestedTokens columns))

/-!
## `_validate_order_by` (`server.py` lines 144-172)

`_validate_order_by` indexes `parts[0]` after checking only
`len(parts) > 2`; on a non-empty, all-whitespace input `parts` is empty
and the indexing raises `IndexError`.  The model therefore returns an
`Option`: `none` is the escaping `IndexError`.
-/

/-- The message `"Invalid order_by format. Use \x27column\x27 or
\x27column ASC/DESC\x27"`. -/
def orderByFormatMsg : Str :=
  str "Invalid order_by format. Use \x27column\x27 or \x27column ASC/DESC\x27"

/-- The f-string `"Invalid sort direction: {direction}. Use ASC or DESC"`. -/
def orderByDirectionMsg (direction : Str) : Str :=
  str "Invalid sort direction: " ++ direction ++ str ". Use ASC or DESC"

/-- The f-string `"Invalid order_by column: {column}. Allowed:
{sorted(allowed)}"`. -/
def orderByColumnMsg (column table : Str) : Str :=
  str "Invalid order_by column: " ++ column ++ str ". Allowed: " ++
    pyReprStrList (sortStrs (allowedColumns table))

/-- `_validate_order_by(order_by, table)` from `server.py`.  `none` models
the `IndexError` raised by `parts[0]` when the stripped input splits into
zero tokens while being non-empty. -/
def validateOrderBy (orderBy table : Str) : Option (Bool × Str) :=
  if orderBy = [] then some (true, [])
  else
    let parts := splitWhitespace (trimStr orderBy)
    if parts.length > 2 then some (false, orderByFormatMsg)
    else
      match parts with
      | [] => none
      | p0 :: rest =>
        let column := lowerStr p0
        let direction := match rest with
          | d :: _ => upperStr d
          | [] => str "ASC"
        if direction ≠ str "ASC" ∧ direction ≠ str "DESC" then
          some (false, orderByDirectionMsg direction)
        else if !(allowedColumns table).contains column then
          some (false, orderByColumnMsg column table)
        else some (true, column ++ [' '] ++ direction)

/-!
## LIKE pattern semantics of the two engines

`database.py` renders dialect fragments as text; their behaviour is that
of the underlying engines, modelled here from the engines' documented
semantics:
* SQLite `LIKE` (no `ESCAPE` clause anywhere in this code base) is
  case-insensitive for ASCII and has **no** escape character — a
  backslash in the pattern is an ordinary character;
* PostgreSQL `LIKE` is case-sensitive and treats backslash as the
  default escape character; `ILIKE` is its case-insensitive variant.
`%` matches any sequence of characters, `_` exactly one.
-/

/-- Character comparison, optionally case-insensitive (ASCII-adequate). -/
def charEqCase (caseSensitive : Bool) (a b : Char) : Bool :=
  if caseSensitive then a = b else a.toLower = b.toLower

/-- Generic LIKE matcher, fuel-indexed so that it is structurally
recursive (every recursive call strictly shrinks `pattern.length +
text.length`, so any fuel above that sum is adequate): `cs` =
case-sensitive, `esc` = backslash is an escape character. -/
def likeFuel (cs esc : Bool) : Nat → Str → Str → Bool
  | 0, _, _ => false
  | _ + 1, [], t => t.isEmpty
  | fuel + 1, p :: ps, t =>
    if p = '%' then
      match t with
      | [] => likeFuel cs esc fuel ps []
      | c :: ts => likeFuel cs esc fuel ps (c :: ts) || likeFuel cs esc fuel (p :: ps) ts
    else if esc && p = '\\' then
      match ps, t with
      | q :: qs, c :: ts => charEqCase cs q c && likeFuel cs esc fuel qs ts
      | _, _ => false
    else if p = '_' then
      match t with
      | [] => false
      | _ :: ts => likeFuel cs esc fuel ps ts
    else
      match t with
      | [] => false
      | c :: ts => charEqCase cs p c && likeFuel cs esc fuel ps ts

/-- LIKE matching of a pattern against a text, with adequate fuel. -/
def likeMatches (cs esc : Bool) (pattern text : Str) : Bool :=
  likeFuel cs esc (pattern.length + text.length + 1) pattern text

/-- SQLite `LIKE`: ASCII-case-insensitive, no escape character. -/
def sqliteLikeMatches (pattern text : Str) : Bool := likeMatches false false pattern text

/-- PostgreSQL `LIKE`: case-sensitive, backslash escape. -/
def pgLikeMatches (pattern text : Str) : Bool := likeMatches true true pattern text

/-- PostgreSQL `ILIKE`: case-insensitive, backslash escape. -/
def pgIlikeMatches (pattern text : Str) : Bool := likeMatches false true pattern text

/-!
## `query_table` (`server.py` lines 205-308)

The row model: a row is an association list column-name → text value
(the filter value of `query_table` is always a string, and every claim
below exercises text columns only; text comparison is modelled
code-point-wise, identically for both engines).  A database maps each
table name to its list of rows, in insertion order.
-/

/-- The backend enum from `config.py`. -/
inductive DbBackend
  | sqlite
  | postgresql
deriving DecidableEq

/-- A row: association list from column name to text value. -/
abbrev Row := List (Str × Str)

/-- A database: table name to rows, in insertion order. -/
abbrev Database := List (Str × List Row)

/-- The rows of a table (empty if the table is unknown). -/
def dbRows (db : Database) (table : Str) : List Row :=
  ((db.find? (fun p => p.1 = table)).map (fun p => p.2)).getD []

/-- The value of a column in a row (empty string if absent). -/
def rowCell (row : Row) (col : Str) : Str :=
  ((row.find? (fun p => p.1 = col)).map (fun p => p.2)).getD []

/-- `allowed_ops` from `query_table`. -/
def ALLOWED_OPS : List Str :=
  [str "=", str "!=", str ">", str "<", str ">=", str "<=", str "LIKE", str "ILIKE"]

/-- The limit clamp of `query_table` (lines 236-237):
`if limit < 0 or limit > 100: limit = min(max(limit, 1), 100)`. -/
def clampLimit (limit : Int) : Int :=
  if limit < 0 ∨ limit > 100 then min (max limit 1) 100 else limit

/-- The offset clamp of `query_table` (lines 238-239):
`if offset < 0: offset = 0`. -/
def clampOffset (offset : Int) : Int :=
  if offset < 0 then 0 else offset

/-- Evaluation of the WHERE fragment built by `query_table` for one row:
`db.ilike(col, p)` for `ILIKE` (SQLite renders `LOWER(col) LIKE
LOWER(p)`, PostgreSQL `col ILIKE p`), the literal `{col} {op} {p}`
otherwise, with each engine's own LIKE semantics for `LIKE`. -/
def evalFilter (backend : DbBackend) (col op value : Str) (row : Row) : Bool :=
  let cell := rowCell row col
  if op = str "ILIKE" then
    match backend with
    | .sqlite => sqliteLikeMatches (lowerStr value) (lowerStr cell)
    | .postgresql => pgIlikeMatches value cell
  else if op = str "LIKE" then
    match backend with
    | .sqlite => sqliteLikeMatches value cell
    | .postgresql => pgLikeMatches value cell
  else if op = str "=" then cell = value
  else if op = str "!=" then cell ≠ value
  else if op = str ">" then strLtB value cell
  else if op = str "<" then strLtB cell value
  else if op = str ">=" then !strLtB cell value
  else if op = str "<=" then !strLtB value cell
  else false

/-- Stable insertion for `sortRowsBy`. -/
def insertRowBy (lt : Row → Row → Bool) (x : Row) : List Row → List Row
  | [] => [x]
  | y :: ys => if lt x y then x :: y :: ys else y :: insertRowBy lt x ys

/-- Stable insertion sort of rows (the model of `ORDER BY`; both engines
get the same deterministic model). -/
def sortRowsBy (lt : Row → Row → Bool) : List Row → List Row
  | [] => []
  | x :: xs => insertRowBy lt x (sortRowsBy lt xs)

/-- Evaluation of the `ORDER BY {safe_order_by}` fragment ("column DIR"
as produced by `_validate_order_by`). -/
def orderRows (safeOrderBy : Str) (rows : List Row) : List Row :=
  match splitWhitespace safeOrderBy with
  | [col, dir] =>
    if dir = str "DESC" then
      sortRowsBy (fun a b => strLtB (rowCell b col) (rowCell a col)) rows
    else
      sortRowsBy (fun a b => strLtB (rowCell a col) (rowCell b col)) rows
  | _ => rows

/-- Evaluation of the `SELECT {safe_columns}` projection. -/
def projectRow (safeColumns : Str) (row : Row) : Row :=
  if safeColumns = str "*" then row
  else (splitOnComma safeColumns).map (fun c => let c2 := trimStr c; (c2, rowCell row c2))

/-- The dict returned by `query_table` on success:
`{"rows", "count", "total", "offset", "limit"}`. -/
structure QueryResult where
  rows : List Row
  count : Nat
  total : Nat
  offset : Int
  limit : Int
deriving DecidableEq

/-- Outcome of a `query_table` call: a structured error dict, a success
dict, or an exception escaping the handler. -/
inductive QueryOutcome
  | exc (msg : Str)
  | errorDict (msg : Str)
  | ok (res : QueryResult)
deriving DecidableEq

/-- The arguments of `query_table`. -/
structure QueryArgs where
  table : Str
  columns : Str
  filterColumn : Option Str
  filterOp : Str
  filterValue : Option Str
  orderBy : Option Str
  limit : Int
  offset : Int
deriving DecidableEq

/-- `query_table` from `server.py` (lines 205-308), transcribed branch by
branch; the SQL text assembled there is evaluated against the database
model (`dbRows`/`evalFilter`/`orderRows`/`projectRow`), with the COUNT
query sharing the WHERE fragment and ignoring order/limit/offset. -/
def queryTable (backend : DbBackend) (db : Database) (a : QueryArgs) : QueryOutcome :=
  if !VALID_TABLES.contains a.table then .errorDict (str "Invalid table name")
  else
    let limit := clampLimit a.limit
    let offset := clampOffset a.offset
    if a.columns.length > 500 then .errorDict (str "Column specification too long")
    else if (match a.filterValue with
             | some v => !v.isEmpty && decide (v.length > 1000)
             | none => false) then .errorDict (str "Filter value too long")
    else
      let vc := validateColumns a.columns a.table
      if !vc.1 then .errorDict vc.2
      else
        let safeColumns := vc.2
        let obInput := match a.orderBy with
          | some s => s
          | none => []
        match validateOrderBy obInput a.table with
        | none => .exc (str "IndexError")
        | some vo =>
          if !vo.1 then .errorDict vo.2
          else
            let safeOrderBy := vo.2
            let fcTruthy := match a.filterColumn with
              | some c => !c.isEmpty
              | none => false
            if fcTruthy && !(allowedColumns a.table).contains (lowerStr (a.filterColumn.getD [])) then
              .errorDict (str "Invalid filter column")
            else if fcTruthy && !ALLOWED_OPS.contains (upperStr a.filterOp) then
              .errorDict (str "Invalid filter operator")
            else
              let applyFilter := fcTruthy && a.filterValue.isSome
              let baseRows := dbRows db a.table
              let filtered :=
                if applyFilter then
                  baseRows.filter (evalFilter backend (lowerStr (a.filterColumn.getD []))
                    (upperStr a.filterOp) (a.filterValue.getD []))
                else baseRows
              let total := filtered.length
              let ordered := if safeOrderBy ≠ [] then orderRows safeOrderBy filtered else filtered
              let paged := (ordered.drop offset.toNat).take limit.toNat
              let outRows := paged.map (projectRow safeColumns)
              .ok ⟨outRows, outRows.length, total, offset, limit⟩

/-!
## Theorems: dialect equivalence of `query_table` (claim C1)
-/

/-- The example database shared by the `query_table` theorems: one
`memories` table with two rows. -/
def exMemoriesDb : Database :=
  [(str "memories",
    [[(str "id", str "1"), (str "content", str "abc"), (str "status", str "promoted")],
     [(str "id", str "2"), (str "content", str "xyz"), (str "status", str "staging")]])]

/-- Arguments with a `LIKE` filter whose pattern has an upper-case
letter: `content LIKE  "A%"`. -/
def likeQueryArgs : QueryArgs :=
  { table := str "memories", columns := str "*",
    filterColumn := some (str "content"), filterOp := str "LIKE",
    filterValue := some (str "A%"), orderBy := none, limit := 20, offset := 0 }

/-!
## Theorems: incomplete filter triple (claim C10)
-/

/-- The expected `query_table` answer when no WHERE clause is added:
the whole table paginated, with `total` the full table count. -/
def unfilteredPage (db : Database) (a : QueryArgs) : QueryResult :=
  ⟨((dbRows db a.table).drop a.offset.toNat).take a.limit.toNat,
   (((dbRows db a.table).drop a.offset.toNat).take a.limit.toNat).length,
   (dbRows db a.table).length, a.offset, a.limit⟩

/-!
## `store_memory` (`server.py` lines 593-645) and claim C8

The `memories` table is modelled with the columns the INSERT provides
plus the generated `id`; the unique-key constraint is the table
invariant enforced at insert.  The backend driver raising on a
duplicate key is modelled by `insertMemory` returning the message text
of the respective driver; `store_memory` string-matches that text, as
the Python does.
-/

/-- `MEMORY_TYPES` from `config.py`. -/
def MEMORY_TYPES : List Str := [str "fact", str "entity", str "preference", str "context"]

/-- One row of `memories` as seen by `store_memory`. -/
structure MemoryRow where
  id : Int
  key : Str
  content : Str
  summary : Option Str
  memoryType : Str
  importance : Int
  tags : Option Str
  sourceAgent : Option Str
  system : Option Str
deriving DecidableEq

/-- The `memories` table: rows in insertion order. -/
abbrev MemoriesTable := List MemoryRow

/-- The SQLite driver's message on a duplicate key. -/
def sqliteUniqueMsg : Str := str "UNIQUE constraint failed: memories.key"

/-- The asyncpg driver's message on a duplicate key. -/
def pgUniqueMsg : Str :=
  str "duplicate key value violates unique constraint \"memories_key_key\""

/-- The generated id of the next insert (`last_insert_rowid()` /
`RETURNING id`). -/
def nextMemoryId (tbl : MemoriesTable) : Int :=
  (tbl.map (fun r => r.id)).foldr max 0 + 1

/-- The INSERT of `store_memory`: fails with the driver's
unique-violation message when the key already exists, otherwise appends
the row and returns the generated id. -/
def insertMemory (backend : DbBackend) (tbl : MemoriesTable) (key content : Str)
    (summary : Option Str) (memoryType : Str) (importance : Int)
    (tags sourceAgent system : Option Str) : Except Str (MemoriesTable × Int) :=
  if tbl.any (fun r => r.key = key) then
    .error (match backend with
      | .sqlite => sqliteUniqueMsg
      | .postgresql => pgUniqueMsg)
  else
    let id := nextMemoryId tbl
    .ok (tbl ++ [⟨id, key, content, summary, memoryType, importance, tags, sourceAgent, system⟩], id)

/-- Outcome of `store_memory`: success dict, error dict, or an
exception re-raised to the caller. -/
inductive StoreOutcome
  | ok (id : Int) (key : Str)
  | errorDict (msg : Str)
  | exc (msg : Str)
deriving DecidableEq

/-- The f-string `"Memory with key '{key}' already exists. Use
update_memory instead."`. -/
def duplicateKeyMsg (key : Str) : Str :=
  str "Memory with key \x27" ++ key ++ str "\x27 already exists. Use update_memory instead."

/-- `store_memory` from `server.py`: validates `memory_type`, clamps
importance to `[1,10]`, attempts the insert, and converts a
unique-violation exception (recognized by its message text) into a
structured conflict error; any other exception is re-raised. -/
def storeMemory (backend : DbBackend) (tbl : MemoriesTable) (key content : Str)
    (summary : Option Str) (memoryType : Str) (importance : Int)
    (tags sourceAgent system : Option Str) : MemoriesTable × StoreOutcome :=
  if !MEMORY_TYPES.contains memoryType then
    (tbl, .errorDict (str "Invalid memory_type. Must be one of: " ++ pyReprStrList MEMORY_TYPES))
  else
    let imp := max 1 (min 10 importance)
    match insertMemory backend tbl key content summary memoryType imp tags sourceAgent system with
    | .ok (tbl2, id) => (tbl2, .ok id key)
    | .error e =>
      if hasSubstr (str "UNIQUE constraint") e || hasSubstr (str "unique") (lowerStr e) then
        (tbl, .errorDict (duplicateKeyMsg key))
      else (tbl, .exc e)

/-!
## Configuration (`config.py` lines 68-131) and claim C9
-/

/-- The process environment: variable name to value. -/
abbrev Env := List (Str × Str)

/-- `os.environ.get(k)`. -/
def envGet (env : Env) (k : Str) : Option Str :=
  (env.find? (fun p => p.1 = k)).map (fun p => p.2)

/-- Python truthiness of an optional string: `None` and `""` are falsy. -/
def envTruthy (v : Option Str) : Bool :=
  match v with
  | some s => !s.isEmpty
  | none => false

/-- The connection parameters returned by `get_postgresql_params`. -/
structure PgParams where
  host : Str
  port : Int
  database : Str
  user : Str
  password : Str
deriving DecidableEq

/-- Split a string at the first occurrence of a separator. -/
def splitFirst (sep : Char) : Str → Option (Str × Str)
  | [] => none
  | c :: rest =>
    if c = sep then some ([], rest)
    else
      match splitFirst sep rest with
      | some (a, b) => some (c :: a, b)
      | none => none

/-- Split a string at the last occurrence of a separator. -/
def splitLast (sep : Char) (s : Str) : Option (Str × Str) :=
  match splitFirst sep s.reverse with
  | some (a, b) => some (b.reverse, a.reverse)
  | none => none

/-- Decimal digit-string value (`None` unless non-empty and all digits). -/
def digitsValue (s : Str) : Option Nat :=
  if s.isEmpty then none
  else
    s.foldl (fun acc c =>
      match acc with
      | none => none
      | some n => if c.isDigit then some (n * 10 + (c.toNat - 48)) else none)
      (some 0)

/-- Python `int(s)`: optional surrounding whitespace, optional sign,
decimal digits; anything else raises (`none`). -/
def parsePyInt (s : Str) : Option Int :=
  match trimStr s with
  | '+' :: rest => (digitsValue rest).map Int.ofNat
  | '-' :: rest => (digitsValue rest).map (fun n => -(n : Int))
  | t => (digitsValue t).map Int.ofNat

/-- `_parse_database_url` from `config.py`: `urllib.parse.urlparse`
restricted to the `scheme://[user[:password]@]host[:port][/path]` shapes
this resolver supports (the netloc is split at the last `@`, the
userinfo at the first `:`, the host-port at the first `:`; urlparse
lower-cases the hostname), with the source's defaults: host
`localhost`, port `5432`, database `worklog` (path stripped of leading
slashes), user `worklog`, password `""`. -/
def parseDatabaseUrl (url : Str) : PgParams :=
  let rest := match splitFirst ':' url with
    | some (_, r) => r.drop 2
    | none => url
  let (netloc, path) := match splitFirst '/' rest with
    | some (n, p) => (n, p)
    | none => (rest, [])
  let (userinfo, hostport) := match splitLast '@' netloc with
    | some (u, h) => (some u, h)
    | none => (none, netloc)
  let (username, password) := match userinfo with
    | some u =>
      (match splitFirst ':' u with
       | some (us, pw) => (some us, some pw)
       | none => (some u, none))
    | none => (none, none)
  let (hostname, port) := match splitFirst ':' hostport with
    | some (h, p) => (h, digitsValue p)
    | none => (hostport, none)
  { host := if hostname.isEmpty then str "localhost" else lowerStr hostname
    port := match port with | some p => (p : Int) | none => 5432
    database :=
      let d := path.dropWhile (fun c => c = '/')
      if d.isEmpty then str "worklog" else d
    user := match username with
      | some u => if u.isEmpty then str "worklog" else u
      | none => str "worklog"
    password := match password with | some p => p | none => [] }

/-- Result of `get_postgresql_params`: parameters, or the `ValueError`
(the ConfigurationError of the spec) with its message. -/
inductive ConfigResult
  | ok (params : PgParams)
  | configError (msg : Str)
deriving DecidableEq

/-- The not-configured message of `get_postgresql_params`. -/
def pgNotConfiguredMsg : Str :=
  str "PostgreSQL selected but not configured.\nOptions:\n  1. Set DATABASE_URL environment variable\n  2. Set PGHOST, PGPORT, PGDATABASE, PGUSER, PGPASSWORD\n  3. Use SQLite instead (default, no config needed)"

/-- The missing-password message of `get_postgresql_params`. -/
def pgNoPasswordMsg : Str :=
  str "PostgreSQL password not configured.\nSet PGPASSWORD or include password in DATABASE_URL."

/-- The f-string `"Invalid PGPORT value: {port_str}. Must be a number."`. -/
def pgInvalidPortMsg (portStr : Str) : Str :=
  str "Invalid PGPORT value: " ++ portStr ++ str ". Must be a number."

/-- The f-string `"Port must be between 1 and 65535, got {port}"`. -/
def pgPortRangeMsg (port : Int) : Str :=
  str "Port must be between 1 and 65535, got " ++ (toString port).data

/-- `get_postgresql_params` from `config.py`: `DATABASE_URL` (if truthy)
wins and is parsed with defaults; otherwise the discrete variables are
read, failing with a ConfigurationError when `PGHOST` or `PGPASSWORD`
is absent/empty or `PGPORT` is non-numeric or out of `[1,65535]`. -/
def getPostgresqlParams (env : Env) : ConfigResult :=
  if envTruthy (envGet env (str "DATABASE_URL")) then
    .ok (parseDatabaseUrl ((envGet env (str "DATABASE_URL")).getD []))
  else if !envTruthy (envGet env (str "PGHOST")) then
    .configError pgNotConfiguredMsg
  else if !envTruthy (envGet env (str "PGPASSWORD")) then
    .configError pgNoPasswordMsg
  else
    let portStr := (envGet env (str "PGPORT")).getD (str "5432")
    match parsePyInt portStr with
    | none => .configError (pgInvalidPortMsg portStr)
    | some port =>
      if port < 1 ∨ port > 65535 then .configError (pgPortRangeMsg port)
      else .ok
        { host := (envGet env (str "PGHOST")).getD []
          port := port
          database := (envGet env (str "PGDATABASE")).getD (str "worklog")
          user := (envGet env (str "PGUSER")).getD (str "worklog")
          password := (envGet env (str "PGPASSWORD")).getD [] }

/-!
## Schema initializer (`database.py` lines 98-198) and claim C2

`SQLiteBackend._init_schema` runs one SQL script through
`executescript`: six `CREATE TABLE IF NOT EXISTS` statements followed by
six `CREATE INDEX IF NOT EXISTS` statements, executed in order.  The
store is modelled as named tables (with their columns and rows) plus a
set of index names; `IF NOT EXISTS` makes a statement a no-op when its
target already exists, while without it SQLite would fail with an
"already exists" error.
-/

/-- A stored table: its columns and its rows. -/
structure TableData where
  cols : List Str
  rows : List Row
deriving DecidableEq

/-- The embedded store: tables and indexes, in creation order. -/
structure SchemaState where
  tables : List (Str × TableData)
  indexes : List Str
deriving DecidableEq

/-- One statement of the schema script. -/
inductive SchemaStmt
  | createTable (ifNotExists : Bool) (name : Str) (cols : List Str)
  | createIndex (ifNotExists : Bool) (name : Str) (table : Str)
deriving DecidableEq

/-- The `IF NOT EXISTS` flag of a statement. -/
def stmtIfNotExists : SchemaStmt → Bool
  | .createTable ine _ _ => ine
  | .createIndex ine _ _ => ine

/-- Does a table of this name exist. -/
def tableExists (s : SchemaState) (name : Str) : Bool :=
  (s.tables.find? (fun p => p.1 = name)).isSome

/-- Does an index of this name exist. -/
def indexExists (s : SchemaState) (name : Str) : Bool :=
  s.indexes.contains name

/-- Execute one schema statement: creating an existing object is a
no-op under `IF NOT EXISTS` and an error otherwise; a fresh table
starts empty. -/
def runStmt (s : SchemaState) : SchemaStmt → Except Str SchemaState
  | .createTable ine name cols =>
    if tableExists s name then
      if ine then .ok s
      else .error (str "table " ++ name ++ str " already exists")
    else .ok { s with tables := s.tables ++ [(name, ⟨cols, []⟩)] }
  | .createIndex ine name _ =>
    if indexExists s name then
      if ine then .ok s
      else .error (str "index " ++ name ++ str " already exists")
    else .ok { s with indexes := s.indexes ++ [name] }

/-- The schema script of `_init_schema`, statement by statement. -/
def schemaScript : List SchemaStmt := [
  .createTable true (str "memories") [str "id", str "key", str "content",
    str "summary", str "memory_type", str "importance", str "status", str "tags",
    str "source_agent", str "system", str "access_count", str "last_accessed",
    str "promoted_at", str "created_at"],
  .createTable true (str "knowledge_base") [str "id", str "category", str "title",
    str "content", str "tags", str "source_agent", str "system", str "is_protocol",
    str "source_url", str "created_at", str "updated_at"],
  .createTable true (str "entries") [str "id", str "timestamp", str "agent",
    str "task_type", str "title", str "details", str "decision_rationale",
    str "outcome", str "tags", str "related_files"],
  .createTable true (str "research") [str "id", str "source_type", str "title",
    str "summary", str "key_points", str "relevance_score", str "tags",
    str "status", str "created_at"],
  .createTable true (str "agent_chat") [str "id", str "from_agent", str "to_agent",
    str "message", str "context", str "priority", str "status", str "parent_id",
    str "response", str "created_at", str "read_at", str "resolved_at"],
  .createTable true (str "error_patterns") [str "id", str "error_signature",
    str "error_message", str "platform", str "language", str "root_cause",
    str "resolution", str "prevention_tip", str "tags", str "created_at"],
  .createIndex true (str "idx_memories_key") (str "memories"),
  .createIndex true (str "idx_memories_type") (str "memories"),
  .createIndex true (str "idx_entries_timestamp") (str "entries"),
  .createIndex true (str "idx_entries_agent") (str "entries"),
  .createIndex true (str "idx_kb_category") (str "knowledge_base"),
  .createIndex true (str "idx_chat_to_agent") (str "agent_chat")
]

/-- `executescript`: run statements in order, stopping at the first
error. -/
def runScript : List SchemaStmt → SchemaState → Except Str SchemaState
  | [], s => .ok s
  | stmt :: rest, s =>
    match runStmt s stmt with
    | .ok s2 => runScript rest s2
    | .error e => .error e

/-- `_init_schema` applied to a store. -/
def initSchema (s : SchemaState) : Except Str SchemaState :=
  runScript schemaScript s

/-- The fresh (just-created) store. -/
def emptySchema : SchemaState := ⟨[], []⟩

/-- The table names of a store, in creation order. -/
def schemaTableNames (s : SchemaState) : List Str := s.tables.map (fun p => p.1)

/-- Boolean success test for `Except`. -/
def exceptIsOk {ε α : Type} : Except ε α → Bool
  | .ok _ => true
  | .error _ => false

/-!
## `find_related` (`server.py` lines 1882-1989) and claim C7

The `relationships` table is modelled as a list of typed rows
(`confidence`, a REAL carried opaquely through the traversal, is
modelled as `Int` since nothing computes with it).  The per-node SQL
queries become filters over that list; the Python `visited` set, the
`next_level` list and the `level_results` list are carried explicitly,
and the `for level in range(1, depth + 1)` loop becomes recursion on
the (clamped) depth, so termination is by construction — exactly as in
the source, where the loop bound is independent of the graph.
-/

/-- `ENTRY_TABLES` from `config.py`. -/
def ENTRY_TABLES : List Str := [str "memories", str "knowledge_base", str "entries"]

/-- One row of the `relationships` table. -/
structure RelRow where
  sourceTable : Str
  sourceId : Int
  targetTable : Str
  targetId : Int
  relType : Str
  confidence : Int
  bidirectional : Bool
deriving DecidableEq

/-- A graph node: (table, id). -/
abbrev RelNode := Str × Int

/-- The optional `AND relationship_type IN (...)` filter (empty filter:
no restriction). -/
def typeOk (tf : List Str) (t : Str) : Bool := tf.isEmpty || tf.contains t

/-- The outgoing-relationships query for one node. -/
def outgoingRows (db : List RelRow) (n : RelNode) (tf : List Str) : List RelRow :=
  db.filter (fun r => decide (r.sourceTable = n.1) && decide (r.sourceId = n.2) &&
    typeOk tf r.relType)

/-- The incoming-relationships query for one node (bidirectional rows
only). -/
def incomingRows (db : List RelRow) (n : RelNode) (tf : List Str) : List RelRow :=
  db.filter (fun r => decide (r.targetTable = n.1) && decide (r.targetId = n.2) &&
    r.bidirectional && typeOk tf r.relType)

/-- One entry of a `level_results` list. -/
structure RelatedEntry where
  tbl : Str
  id : Int
  relationship : Str
  confidence : Int
  direction : Str
deriving DecidableEq

/-- The node an entry denotes. -/
def entryNode (e : RelatedEntry) : RelNode := (e.tbl, e.id)

/-- The node reached by an outgoing row. -/
def outNode (r : RelRow) : RelNode := (r.targetTable, r.targetId)

/-- The node reached by an incoming (bidirectional) row. -/
def inNode (r : RelRow) : RelNode := (r.sourceTable, r.sourceId)

/-- The `level_results` entry built from an outgoing row. -/
def outEntry (r : RelRow) : RelatedEntry :=
  ⟨r.targetTable, r.targetId, r.relType, r.confidence, str "outgoing"⟩

/-- The `level_results` entry built from an incoming row. -/
def inEntry (r : RelRow) : RelatedEntry :=
  ⟨r.sourceTable, r.sourceId, r.relType, r.confidence, str "incoming"⟩

/-- The row-processing loop of `find_related`: for each fetched row,
skip it if its node is already visited, otherwise mark it visited and
append it to `next_level` and `level_results`. -/
def processRows (g : RelRow → RelNode) (mk : RelRow → RelatedEntry) :
    List RelRow → List RelNode → List RelNode → List RelatedEntry →
    List RelNode × List RelNode × List RelatedEntry
  | [], v, nx, res => (v, nx, res)
  | r :: rest, v, nx, res =>
    if v.contains (g r) then processRows g mk rest v nx res
    else processRows g mk rest (v ++ [g r]) (nx ++ [g r]) (res ++ [mk r])

/-- Processing of one node of the current level: outgoing rows first,
then incoming bidirectional rows, threading visited/next/results. -/
def expandNode (db : List RelRow) (tf : List Str)
    (st : List RelNode × List RelNode × List RelatedEntry) (n : RelNode) :
    List RelNode × List RelNode × List RelatedEntry :=
  let s1 := processRows outNode outEntry (outgoingRows db n tf) st.1 st.2.1 st.2.2
  processRows inNode inEntry (incomingRows db n tf) s1.1 s1.2.1 s1.2.2

/-- Processing of one whole level (`for table, eid in current_level`). -/
def expandLevel (db : List RelRow) (tf : List Str) (v : List RelNode)
    (current : List RelNode) : List RelNode × List RelNode × List RelatedEntry :=
  current.foldl (expandNode db tf) (v, [], [])

/-- The `for level in range(1, depth + 1)` loop: produces the non-empty
levels (keyed by their depth) and the final visited set; stops early
when a level discovers nothing. -/
def bfsLoop (db : List RelRow) (tf : List Str) :
    Nat → List RelNode → List RelNode → Nat →
    List (Nat × List RelatedEntry) × List RelNode
  | 0, v, _, _ => ([], v)
  | fuel + 1, v, current, level =>
    let st := expandLevel db tf v current
    let rest :=
      if st.2.1.isEmpty then ([], st.1)
      else bfsLoop db tf fuel st.1 st.2.1 (level + 1)
    (if st.2.2.isEmpty then rest.1 else (level, st.2.2) :: rest.1, rest.2)

/-- The parsed `relationship_types` argument:
`[t.strip() for t in (relationship_types or "").split(",") if t.strip()]`. -/
def typeFilter (rt : Option Str) : List Str :=
  ((splitOnComma (rt.getD [])).map trimStr).filter (fun t => !t.isEmpty)

/-- Result of `find_related`: the error dict, or the source node, the
per-depth levels and `total_related`. -/
inductive FindRelatedResult
  | errorDict (msg : Str)
  | ok (source : RelNode) (levels : List (Nat × List RelatedEntry)) (totalRelated : Int)
deriving DecidableEq

/-- The levels of a `find_related` result. -/
def resultLevels : FindRelatedResult → List (Nat × List RelatedEntry)
  | .errorDict _ => []
  | .ok _ levels _ => levels

/-- `find_related` from `server.py`: validates the entry table, clamps
the depth to `[1,3]`, parses the type filter, and runs the
breadth-first traversal from the source node with the source initially
visited. -/
def findRelated (db : List RelRow) (entryTable : Str) (entryId : Int) (depth : Int)
    (relationshipTypes : Option Str) : FindRelatedResult :=
  if !ENTRY_TABLES.contains entryTable then
    .errorDict (str "Invalid entry_table. Must be one of: " ++ pyReprStrList ENTRY_TABLES)
  else
    let depth2 := max 1 (min 3 depth)
    let tf := typeFilter relationshipTypes
    let start : RelNode := (entryTable, entryId)
    let r := bfsLoop db tf depth2.toNat [start] [start] 1
    .ok start r.1 ((r.2.length : Int) - 1)

/-- Invariant carried by the per-level fold: the visited set only ever
grows, and every listed entry was unvisited at the start (of the whole
level expansion) and is visited afterwards. -/
def LevelInv (v0 : List RelNode)
    (st : List RelNode × List RelNode × List RelatedEntry) : Prop :=
  (∀ x, v0.contains x = true → st.1.contains x = true) ∧
  (∀ e ∈ st.2.2, v0.contains (entryNode e) = false ∧
    st.1.contains (entryNode e) = true)

/-- Pairwise node-disjointness of the per-depth result lists. -/
def LevelsDisjoint (levels : List (Nat × List RelatedEntry)) : Prop :=
  List.Pairwise (fun a b => ∀ e ∈ a.2, ∀ e2 ∈ b.2, entryNode e ≠ entryNode e2) levels

/-- A cyclic relationship graph: 1→2, 2→1 (a cycle), and 3→1
bidirectional. -/
def cycleRels : List RelRow := [
  ⟨str "memories", 1, str "memories", 2, str "relates_to", 1, false⟩,
  ⟨str "memories", 2, str "memories", 1, str "relates_to", 1, false⟩,
  ⟨str "memories", 3, str "memories", 1, str "relates_to", 1, true⟩]

/-!
## Theorems: limit/offset clamping (claim C3)
-/

/-- Claim C3 counterexample: `query_table` clamps only when
`limit < 0 or limit > 100`, so a limit of `0` is applied unchanged and
the applied limit is *not* in `[1,100]`. -/
theorem C3_counterexample :
    clampLimit 0 = 0 ∧ ¬(1 ≤ clampLimit 0 ∧ clampLimit 0 ≤ 100) := by decide

/-- Claim C3 (amended): for every integer limit and offset passed to
`query_table`, the applied limit lies in `[0,100]` — negative limits
clamp to 1, limits above 100 clamp to 100, and any limit already in
`[0,100]` (including 0) passes through — and the applied offset is
nonnegative. -/
theorem C3_clamp_amended (l o : Int) :
    (0 ≤ clampLimit l ∧ clampLimit l ≤ 100) ∧
    (l ≠ 0 → 1 ≤ clampLimit l) ∧
    0 ≤ clampOffset o := by
  unfold clampLimit clampOffset
  refine ⟨⟨?_, ?_⟩, fun h => ?_, ?_⟩ <;>
    (try simp only [Int.min_def, Int.max_def]) <;> (repeat' split) <;> omega

/-- Witness for `C3_clamp_amended` at concrete inputs. -/
theorem C3_clamp_witness :
    (0 ≤ clampLimit (-7) ∧ clampLimit (-7) ≤ 100) ∧
    ((-7 : Int) ≠ 0 → 1 ≤ clampLimit (-7)) ∧
    0 ≤ clampOffset (-3) :=
  C3_clamp_amended (-7) (-3)

/-!
## Theorems: wildcard escaping (claim C6)
-/

/-- Claim C6: `_escape_search_wildcards` escapes backslash first, then
`%` and `_`, and wraps the result in `%...%`; on the PostgreSQL engine
(whose LIKE/ILIKE treats backslash as escape) the resulting pattern
matches exactly the contents having the literal term as a substring —
but on the SQLite engine the rendered fragment `LOWER(col) LIKE
LOWER(?)` carries **no** `ESCAPE` clause, backslash is an ordinary
character there, and the stored content `"100% done"` is *not* matched
when searching for `"100% done"`: the escaping is broken on the default
backend. -/
theorem C6_escape_wildcards_sqlite_bug :
    escapeSearchWildcards (str "100% done") = str "%100\\% done%" ∧
    hasSubstr (str "100% done") (str "stored: 100% done.") = true ∧
    pgIlikeMatches (escapeSearchWildcards (str "100% done")) (str "stored: 100% done.") = true ∧
    pgIlikeMatches (escapeSearchWildcards (str "100X done")) (str "stored: 100% done.") = false ∧
    sqliteLikeMatches (lowerStr (escapeSearchWildcards (str "100% done")))
      (lowerStr (str "stored: 100% done.")) = false := by
  refine ⟨rfl, rfl, ?_, ?_, ?_⟩ <;> decide

/-!
## Theorems: column whitelist validation (claim C4)
-/

/-- Removing trailing whitespace keeps a non-whitespace head. -/
theorem dropTrailingSpaces_cons_of_not_space {c : Char} (h : isSpaceChar c = false)
    (l : Str) : dropTrailingSpaces (c :: l) = c :: dropTrailingSpaces l := by
  simp only [dropTrailingSpaces]
  split
  · next heq => simp_all [List.isEmpty_iff]
  · rfl

/-- `strip` keeps a non-whitespace head. -/
theorem trimStr_cons_of_not_space {c : Char} (h : isSpaceChar c = false) (l : Str) :
    trimStr (c :: l) = c :: dropTrailingSpaces l := by
  simp only [trimStr, dropLeadingSpaces, List.dropWhile_cons, h]
  simp [dropTrailingSpaces_cons_of_not_space h]

/-- `split(",")` never returns an empty list of pieces. -/
theorem splitOnComma_ne_nil (s : Str) : splitOnComma s ≠ [] := by
  cases s with
  | nil => simp [splitOnComma]
  | cons c rest =>
    simp only [splitOnComma]
    split
    · simp
    · split <;> simp

/-- `split(",")` of a comma-free string is the one-piece list. -/
theorem splitOnComma_of_no_comma {s : Str} (h : ',' ∉ s) : splitOnComma s = [s] := by
  induction s with
  | nil => rfl
  | cons c rest ih =>
    have hc : c ≠ ',' := fun hcc => h (hcc ▸ List.mem_cons_self c rest)
    have hr : ',' ∉ rest := fun hm => h (List.mem_cons_of_mem c hm)
    simp only [splitOnComma, if_neg hc, ih hr]

/-- The head of `"id," ++ c` splits as the token `"id"` followed by `c`. -/
theorem splitOnComma_id_comma (c : Str) (h : ',' ∉ c) :
    splitOnComma (str "id," ++ c) = [str "id", c] := by
  have h1 : splitOnComma c = [c] := splitOnComma_of_no_comma h
  show splitOnComma ('i' :: 'd' :: ',' :: c) = [str "id", c]
  simp [splitOnComma, h1, str]

/-- Claim C4: for every table in the fixed table set, `"*"` passes
column validation unchanged; a general spec is valid exactly when every
comma-token (trimmed, lower-cased) is whitelisted; a failing spec
returns the offending-token list with no partial acceptance; and for
any comma-free column `c` outside the whitelist, validating `"id,c"`
fails naming exactly (the trimmed, lower-cased) `c`. -/
theorem C4_validate_columns (T : Str) (hT : T ∈ VALID_TABLES) :
    (validateColumns (str "*") T = (true, str "*")) ∧
    (∀ spec : Str, (validateColumns spec T).1 = true ↔
        (trimStr spec = str "*" ∨ ∀ tok ∈ requestedTokens spec, tok ∈ allowedColumns T)) ∧
    (∀ spec : Str, trimStr spec ≠ str "*" → invalidTokens spec T ≠ [] →
        validateColumns spec T = (false, invalidColumnsMsg (invalidTokens spec T) T)) ∧
    (∀ c : Str, ',' ∉ c → lowerStr (trimStr c) ∉ allowedColumns T →
        validateColumns (str "id," ++ c) T =
          (false, invalidColumnsMsg [lowerStr (trimStr c)] T)) := by
  have hid : ∀ U ∈ VALID_TABLES, (allowedColumns U).contains (str "id") = true := by decide
  refine ⟨rfl, ?_, ?_, ?_⟩
  · intro spec
    unfold validateColumns
    split
    · next hstar => simp [hstar]
    · next hstar =>
      simp only [hstar, false_or]
      split
      · next hinv =>
        simp only [show ((false, invalidColumnsMsg (invalidTokens spec T) T).1 = true) = False by simp,
          false_iff]
        intro hall
        apply hinv
        unfold invalidTokens
        rw [List.filter_eq_nil_iff]
        intro tok htok
        simp [hall tok htok, List.contains, List.elem_iff]
      · next hinv =>
        simp only [true_iff]
        intro tok htok
        have : invalidTokens spec T = [] := by
          by_contra hne
          exact hinv hne
        unfold invalidTokens at this
        rw [List.filter_eq_nil_iff] at this
        have h2 := this tok htok
        simpa [List.contains, List.elem_iff] using h2
  · intro spec h1 h2
    unfold validateColumns
    rw [if_neg h1, if_pos h2]
  · intro c hc hcw
    have hsplit := splitOnComma_id_comma c hc
    have hreq : requestedTokens (str "id," ++ c) = [str "id", lowerStr (trimStr c)] := by
      unfold requestedTokens
      rw [hsplit]
      rfl
    have hidT : (str "id") ∈ allowedColumns T := by
      have := hid T hT
      simpa [List.contains, List.elem_iff] using this
    have hinv : invalidTokens (str "id," ++ c) T = [lowerStr (trimStr c)] := by
      unfold invalidTokens
      rw [hreq]
      simp [List.filter, List.contains, List.elem_iff, hidT, hcw]
    have hne : trimStr (str "id," ++ c) ≠ str "*" := by
      show trimStr ('i' :: ('d' :: ',' :: c)) ≠ str "*"
      rw [trimStr_cons_of_not_space (by decide)]
      intro hcontra
      have := congrArg (fun l => l.head?) hcontra
      simp [str] at this
    unfold validateColumns
    rw [if_neg hne, hinv, if_pos (by simp)]

/-- Witness for `C4_validate_columns`: the `"memories"` table accepts
`"*"` and rejects `"id,evil_column"` naming `evil_column`. -/
theorem C4_validate_columns_witness :
    validateColumns (str "*") (str "memories") = (true, str "*") ∧
    validateColumns (str "id,evil_column") (str "memories") =
      (false, invalidColumnsMsg [str "evil_column"] (str "memories")) := by
  have h := C4_validate_columns (str "memories") (by decide)
  exact ⟨h.1, h.2.2.2 (str "evil_column") (by decide) (by decide)⟩

/-!
## Theorems: order-by validation (claim C5)
-/

/-- Claim C5 counterexample: on the non-empty, whitespace-only spec
`" "` the validator indexes `parts[0]` of an empty token list — an
unhandled `IndexError` (modelled as `none`) instead of a validation
failure with a reason. -/
theorem C5_counterexample : validateOrderBy (str " ") (str "memories") = none := rfl

/-- Claim C5 (amended): for every order-by spec that is empty or has at
least one whitespace-separated token, `_validate_order_by` behaves as
claimed — empty spec valid with no ordering, a bare column valid with
direction defaulting to `ASC` exactly when whitelisted, a two-token
spec checked against the whitelist and `{ASC, DESC}` case-insensitively,
and over-long specs, bad directions and non-whitelisted columns failing
with a specific reason; a non-empty all-whitespace spec, however,
raises an unhandled `IndexError`. -/
theorem C5_validate_order_by_amended (T : Str) :
    (validateOrderBy [] T = some (true, [])) ∧
    (∀ s c, splitWhitespace (trimStr s) = [c] →
        validateOrderBy s T =
          (if (allowedColumns T).contains (lowerStr c) then
             some (true, lowerStr c ++ [' '] ++ str "ASC")
           else some (false, orderByColumnMsg (lowerStr c) T))) ∧
    (∀ s c d, splitWhitespace (trimStr s) = [c, d] →
        validateOrderBy s T =
          (if upperStr d ≠ str "ASC" ∧ upperStr d ≠ str "DESC" then
             some (false, orderByDirectionMsg (upperStr d))
           else if !(allowedColumns T).contains (lowerStr c) then
             some (false, orderByColumnMsg (lowerStr c) T)
           else some (true, lowerStr c ++ [' '] ++ upperStr d))) ∧
    (∀ s, 2 < (splitWhitespace (trimStr s)).length →
        validateOrderBy s T = some (false, orderByFormatMsg)) := by
  have hnil : splitWhitespace (trimStr ([] : Str)) = [] := rfl
  refine ⟨rfl, ?_, ?_, ?_⟩
  · intro s c hs
    have hne : s ≠ [] := by
      intro h
      subst h
      rw [hnil] at hs
      exact List.noConfusion hs
    unfold validateOrderBy
    rw [if_neg hne, hs]
    simp only [List.length_cons, List.length_nil]
    rw [if_neg (by omega)]
    have hdir : ¬(str "ASC" ≠ str "ASC" ∧ str "ASC" ≠ str "DESC") := by
      intro h
      exact h.1 rfl
    rw [if_neg hdir]
    cases hcb : (allowedColumns T).contains (lowerStr c) <;> simp [hcb]
  · intro s c d hs
    have hne : s ≠ [] := by
      intro h
      subst h
      rw [hnil] at hs
      exact List.noConfusion hs
    unfold validateOrderBy
    rw [if_neg hne, hs]
    simp only [List.length_cons, List.length_nil]
    rw [if_neg (by omega)]
  · intro s hlen
    have hne : s ≠ [] := by
      intro h
      subst h
      rw [hnil] at hlen
      simp at hlen
    unfold validateOrderBy
    rw [if_neg hne, if_pos (by omega)]

/-- Witness for `C5_validate_order_by_amended` on the `"memories"`
table at concrete inputs. -/
theorem C5_validate_order_by_witness :
    validateOrderBy (str "importance") (str "memories") = some (true, str "importance ASC") ∧
    validateOrderBy (str "id EVIL") (str "memories") =
      some (false, orderByDirectionMsg (str "EVIL")) ∧
    validateOrderBy (str "a b c") (str "memories") = some (false, orderByFormatMsg) := by
  have h := C5_validate_order_by_amended (str "memories")
  refine ⟨?_, ?_, ?_⟩
  · have h1 := h.2.1 (str "importance") (str "importance") (by decide)
    rw [if_pos (by decide)] at h1
    exact h1
  · have h2 := h.2.2.1 (str "id EVIL") (str "id") (str "EVIL") (by decide)
    rw [if_pos (by decide)] at h2
    exact h2
  · exact h.2.2.2 (str "a b c") (by decide)

/-- For the six comparison operators the WHERE evaluation does not
depend on the backend; only `LIKE`/`ILIKE` route through engine-specific
pattern semantics. -/
theorem evalFilter_backend_indep {op : Str} (h1 : op ≠ str "ILIKE")
    (h2 : op ≠ str "LIKE") (col value : Str) (row : Row) :
    evalFilter .sqlite col op value row = evalFilter .postgresql col op value row := by
  unfold evalFilter
  rw [if_neg h1, if_neg h2, if_neg h1, if_neg h2]

/-- Claim C1 (amended): `query_table` returns identical results on the
SQLite and the PostgreSQL backends for every logical input whose filter
operator (upper-cased) is not `LIKE` or `ILIKE` — in particular for
every unfiltered query and every `=`, `!=`, `>`, `<`, `>=`, `<=`
filter.  For `LIKE`/`ILIKE` the row sets can differ, because SQLite's
`LIKE` is ASCII-case-insensitive with no escape character while
PostgreSQL's is case-sensitive with backslash escaping
(`C1_counterexample`). -/
theorem C1_dialect_equivalence_amended (db : Database) (a : QueryArgs)
    (h1 : upperStr a.filterOp ≠ str "ILIKE") (h2 : upperStr a.filterOp ≠ str "LIKE") :
    queryTable .sqlite db a = queryTable .postgresql db a := by
  have hf : evalFilter .sqlite (lowerStr (a.filterColumn.getD []))
        (upperStr a.filterOp) (a.filterValue.getD [])
      = evalFilter .postgresql (lowerStr (a.filterColumn.getD []))
        (upperStr a.filterOp) (a.filterValue.getD []) :=
    funext fun r => evalFilter_backend_indep h1 h2 _ _ r
  unfold queryTable
  rw [hf]

/-- Claim C1 counterexample: on the same data and the same logical
input (`content LIKE  "A%"`), the SQLite backend returns the row
`"abc"` (its `LIKE` is case-insensitive) while the PostgreSQL backend
returns no row — the row sets differ, not merely their serialization. -/
theorem C1_counterexample :
    queryTable .sqlite exMemoriesDb likeQueryArgs ≠
      queryTable .postgresql exMemoriesDb likeQueryArgs := by decide

/-- Witness for `C1_dialect_equivalence_amended`: an `=` filter gives
the same result on both backends. -/
theorem C1_dialect_equivalence_witness :
    queryTable .sqlite exMemoriesDb
      { likeQueryArgs with filterOp := str "=", filterValue := some (str "abc") } =
    queryTable .postgresql exMemoriesDb
      { likeQueryArgs with filterOp := str "=", filterValue := some (str "abc") } :=
  C1_dialect_equivalence_amended exMemoriesDb _ (by decide) (by decide)

/-- A limit already in `[1,100]` passes the clamp unchanged. -/
theorem clampLimit_of_in_range {l : Int} (h1 : 1 ≤ l) (h2 : l ≤ 100) :
    clampLimit l = l := by
  unfold clampLimit
  rw [if_neg (by omega)]

/-- A nonnegative offset passes the clamp unchanged. -/
theorem clampOffset_of_nonneg {o : Int} (h : 0 ≤ o) : clampOffset o = o := by
  unfold clampOffset
  rw [if_neg (by omega)]

/-- `SELECT *` projects a row to itself. -/
theorem projectRow_star (row : Row) : projectRow (str "*") row = row := rfl

/-- `SELECT *` projects a row list to itself. -/
theorem map_projectRow_star : ∀ l : List Row, l.map (projectRow (str "*")) = l
  | [] => rfl
  | r :: rest => by rw [List.map_cons, projectRow_star, map_projectRow_star rest]

/-- Claim C10: calling `query_table` with a valid `filter_column` but
`filter_value=None`, or with a `filter_value` but no `filter_column`,
adds no WHERE clause: the call silently succeeds with the unfiltered
rows and the total count of the whole table, rather than erroring on
the incomplete filter triple. -/
theorem C10_incomplete_filter_no_where (b : DbBackend) (db : Database) (a : QueryArgs)
    (ht : VALID_TABLES.contains a.table = true)
    (hcols : a.columns = str "*")
    (hob : a.orderBy = none)
    (hlim1 : 1 ≤ a.limit) (hlim2 : a.limit ≤ 100) (hoff : 0 ≤ a.offset) :
    (∀ c, a.filterColumn = some c →
      (allowedColumns a.table).contains (lowerStr c) = true →
      ALLOWED_OPS.contains (upperStr a.filterOp) = true →
      a.filterValue = none →
      queryTable b db a = .ok (unfilteredPage db a)) ∧
    (∀ v, a.filterColumn = none → a.filterValue = some v → v.length ≤ 1000 →
      queryTable b db a = .ok (unfilteredPage db a)) := by
  have hvc : validateColumns (str "*") a.table = (true, str "*") := rfl
  have hvo : validateOrderBy [] a.table = some (true, []) := rfl
  constructor
  · intro c hfc hcont hop hfv
    unfold queryTable
    rw [clampLimit_of_in_range hlim1 hlim2, clampOffset_of_nonneg hoff,
      hcols, hob, hfc, hfv]
    simp only [ht, Bool.not_true, Bool.false_eq_true, if_false,
      show ¬((str "*").length > 500) by decide, if_neg, hvc, hvo,
      Option.getD_some, hcont, hop, Bool.not_true, Bool.and_false,
      Option.isSome_none, Bool.false_eq_true, if_false,
      map_projectRow_star, unfilteredPage]
    rfl
  · intro v hfc hfv hvlen
    unfold queryTable
    rw [clampLimit_of_in_range hlim1 hlim2, clampOffset_of_nonneg hoff,
      hcols, hob, hfc, hfv]
    simp only [ht, Bool.not_true, Bool.false_eq_true, if_false,
      show ¬((str "*").length > 500) by decide, if_neg, hvc, hvo,
      show ¬(v.length > 1000) by omega, decide_eq_true_eq,
      Bool.and_eq_true, Bool.false_and, Bool.and_false,
      map_projectRow_star, unfilteredPage]
    simp

/-- Witness for `C10_incomplete_filter_no_where`: a valid filter column
with `filter_value=None` on the example database. -/
theorem C10_incomplete_filter_witness :
    queryTable .sqlite exMemoriesDb
      { likeQueryArgs with
        filterColumn := some (str "status")
        filterOp := str "="
        filterValue := none } =
    .ok (unfilteredPage exMemoriesDb
      { likeQueryArgs with
        filterColumn := some (str "status")
        filterOp := str "="
        filterValue := none }) :=
  (C10_incomplete_filter_no_where .sqlite exMemoriesDb _
      (by decide) rfl rfl (by decide) (by decide) (by decide)).1
    (str "status") rfl (by decide) (by decide) rfl

/-- Claim C8: inserting a memory with a fresh key succeeds; repeating
the insert with the same key returns a conflict *as data* naming the
remedy (`update_memory`), never a raw database exception, and leaves
the stored table unchanged. -/
theorem C8_store_memory_conflict (b : DbBackend) (tbl : MemoriesTable)
    (key content : Str) (summary : Option Str) (memoryType : Str) (importance : Int)
    (tags sourceAgent system : Option Str)
    (hk : tbl.any (fun r => r.key = key) = false)
    (hm : MEMORY_TYPES.contains memoryType = true) :
    (storeMemory b tbl key content summary memoryType importance tags
        sourceAgent system).2 = .ok (nextMemoryId tbl) key ∧
    (storeMemory b ((storeMemory b tbl key content summary memoryType importance tags
        sourceAgent system).1) key content summary memoryType importance tags
        sourceAgent system).2 = .errorDict (duplicateKeyMsg key) ∧
    (∀ e, (storeMemory b ((storeMemory b tbl key content summary memoryType importance
        tags sourceAgent system).1) key content summary memoryType importance tags
        sourceAgent system).2 ≠ .exc e) ∧
    (storeMemory b ((storeMemory b tbl key content summary memoryType importance tags
        sourceAgent system).1) key content summary memoryType importance tags
        sourceAgent system).1 =
      (storeMemory b tbl key content summary memoryType importance tags
        sourceAgent system).1 := by
  have h1 : storeMemory b tbl key content summary memoryType importance tags
      sourceAgent system =
      (tbl ++ [⟨nextMemoryId tbl, key, content, summary, memoryType,
        max 1 (min 10 importance), tags, sourceAgent, system⟩],
       .ok (nextMemoryId tbl) key) := by
    unfold storeMemory insertMemory
    rw [hm]
    simp [hk]
  have hk2 : (tbl ++ [(⟨nextMemoryId tbl, key, content, summary, memoryType,
      max 1 (min 10 importance), tags, sourceAgent, system⟩ : MemoryRow)]).any
      (fun r => r.key = key) = true := by
    simp
  have h2 : storeMemory b (tbl ++ [⟨nextMemoryId tbl, key, content, summary, memoryType,
      max 1 (min 10 importance), tags, sourceAgent, system⟩]) key content summary
      memoryType importance tags sourceAgent system =
      (tbl ++ [⟨nextMemoryId tbl, key, content, summary, memoryType,
        max 1 (min 10 importance), tags, sourceAgent, system⟩],
       .errorDict (duplicateKeyMsg key)) := by
    unfold storeMemory insertMemory
    rw [hm]
    simp only [Bool.not_true, Bool.false_eq_true, if_false, hk2, if_true]
    cases b <;> simp [sqliteUniqueMsg, pgUniqueMsg] <;> decide
  rw [h1]
  refine ⟨rfl, ?_, ?_, ?_⟩
  · rw [h2]
  · intro e
    rw [h2]
    simp
  · rw [h2]

/-- Witness for `C8_store_memory_conflict` at concrete inputs. -/
theorem C8_store_memory_witness :
    (storeMemory .sqlite [] (str "k1") (str "c") none (str "fact") 5 none none
        none).2 = .ok (nextMemoryId []) (str "k1") ∧
    (storeMemory .sqlite ((storeMemory .sqlite [] (str "k1") (str "c") none (str "fact") 5
        none none none).1) (str "k1") (str "c") none (str "fact") 5 none none
        none).2 = .errorDict (duplicateKeyMsg (str "k1")) ∧
    (∀ e, (storeMemory .sqlite ((storeMemory .sqlite [] (str "k1") (str "c") none
        (str "fact") 5 none none none).1) (str "k1") (str "c") none (str "fact") 5 none
        none none).2 ≠ .exc e) ∧
    (storeMemory .sqlite ((storeMemory .sqlite [] (str "k1") (str "c") none (str "fact")
        5 none none none).1) (str "k1") (str "c") none (str "fact") 5 none none
        none).1 =
      (storeMemory .sqlite [] (str "k1") (str "c") none (str "fact") 5 none none
        none).1 :=
  C8_store_memory_conflict .sqlite [] (str "k1") (str "c") none (str "fact") 5 none
    none none (by decide) (by decide)

/-- Claim C9 counterexample: in the connection-string form a missing
password does **not** fail — `DATABASE_URL=postgresql://u@h:5432/db`
resolves successfully with an empty password instead of raising a
ConfigurationError naming the missing variable. -/
theorem C9_counterexample :
    getPostgresqlParams [(str "DATABASE_URL", str "postgresql://u@h:5432/db")] =
      .ok { host := str "h", port := 5432, database := str "db",
            user := str "u", password := [] } := by decide

/-- Claim C9 (amended): in the discrete-variables form, resolution
fails with a ConfigurationError (returned, not a crash) whose message
names the missing variable — `PGHOST` (with remediation options) when
connection info is absent, `PGPASSWORD` when the password is absent —
and a non-numeric or out-of-`[1,65535]` `PGPORT` fails with a
ConfigurationError before any connection attempt.  In the
connection-string form, missing URL components are defaulted (the
password to the empty string) and no error is raised
(`C9_counterexample`). -/
theorem C9_config_error_amended (env : Env)
    (hurl : envTruthy (envGet env (str "DATABASE_URL")) = false) :
    (envTruthy (envGet env (str "PGHOST")) = false →
        getPostgresqlParams env = .configError pgNotConfiguredMsg ∧
        hasSubstr (str "PGHOST") pgNotConfiguredMsg = true) ∧
    (envTruthy (envGet env (str "PGHOST")) = true →
      envTruthy (envGet env (str "PGPASSWORD")) = false →
        getPostgresqlParams env = .configError pgNoPasswordMsg ∧
        hasSubstr (str "PGPASSWORD") pgNoPasswordMsg = true) ∧
    (∀ p, envTruthy (envGet env (str "PGHOST")) = true →
      envTruthy (envGet env (str "PGPASSWORD")) = true →
      envGet env (str "PGPORT") = some p →
      parsePyInt p = none →
        getPostgresqlParams env = .configError (pgInvalidPortMsg p)) ∧
    (∀ p n, envTruthy (envGet env (str "PGHOST")) = true →
      envTruthy (envGet env (str "PGPASSWORD")) = true →
      envGet env (str "PGPORT") = some p →
      parsePyInt p = some n → (n < 1 ∨ n > 65535) →
        getPostgresqlParams env = .configError (pgPortRangeMsg n)) := by
  refine ⟨?_, ?_, ?_, ?_⟩
  · intro hhost
    refine ⟨?_, by decide⟩
    unfold getPostgresqlParams
    rw [hurl, hhost]
    rfl
  · intro hhost hpw
    refine ⟨?_, by decide⟩
    unfold getPostgresqlParams
    rw [hurl, hhost, hpw]
    rfl
  · intro p hhost hpw hport hparse
    unfold getPostgresqlParams
    rw [hurl, hhost, hpw, hport]
    simp only [Option.getD_some, hparse]
    simp
  · intro p n hhost hpw hport hparse hrange
    unfold getPostgresqlParams
    rw [hurl, hhost, hpw, hport]
    simp only [Option.getD_some, hparse]
    rw [if_pos hrange]
    simp

/-- Witness for `C9_config_error_amended` on concrete environments. -/
theorem C9_config_error_witness :
    (getPostgresqlParams [] = .configError pgNotConfiguredMsg ∧
      hasSubstr (str "PGHOST") pgNotConfiguredMsg = true) ∧
    (getPostgresqlParams [(str "PGHOST", str "h")] = .configError pgNoPasswordMsg ∧
      hasSubstr (str "PGPASSWORD") pgNoPasswordMsg = true) ∧
    (getPostgresqlParams
        [(str "PGHOST", str "h"), (str "PGPASSWORD", str "pw"),
         (str "PGPORT", str "abc")] = .configError (pgInvalidPortMsg (str "abc"))) ∧
    (getPostgresqlParams
        [(str "PGHOST", str "h"), (str "PGPASSWORD", str "pw"),
         (str "PGPORT", str "70000")] = .configError (pgPortRangeMsg 70000)) := by
  refine ⟨(C9_config_error_amended [] (by decide)).1 (by decide),
    ((C9_config_error_amended [(str "PGHOST", str "h")] (by decide)).2.1
      (by decide) (by decide)),
    ((C9_config_error_amended
        [(str "PGHOST", str "h"), (str "PGPASSWORD", str "pw"),
         (str "PGPORT", str "abc")] (by decide)).2.2.1 (str "abc")
      (by decide) (by decide) (by decide) (by decide)),
    ((C9_config_error_amended
        [(str "PGHOST", str "h"), (str "PGPASSWORD", str "pw"),
         (str "PGPORT", str "70000")] (by decide)).2.2.2 (str "70000") 70000
      (by decide) (by decide) (by decide) (by decide) (by decide))⟩

/-- Claim C2 counterexample: the schema initializer creates exactly
six tables — `tag_taxonomy` (and the other six curation tables named by
the claim) is **not** among them. -/
theorem C2_counterexample :
    (initSchema emptySchema).map schemaTableNames =
      .ok [str "memories", str "knowledge_base", str "entries", str "research",
           str "agent_chat", str "error_patterns"] ∧
    (initSchema emptySchema).map
      (fun s => (schemaTableNames s).contains (str "tag_taxonomy")) = .ok false := by
  constructor <;> rfl

/-- A `find?` hit in a prefix survives appending. -/
theorem find?_append_of_some {α : Type} (p : α → Bool) {l1 : List α} (l2 : List α)
    {x : α} (h : l1.find? p = some x) : (l1 ++ l2).find? p = some x := by
  induction l1 with
  | nil => simp [List.find?] at h
  | cons a as ih =>
    rw [List.cons_append]
    by_cases hpa : p a = true
    · rw [List.find?_cons_of_pos _ hpa] at h ⊢
      exact h
    · rw [List.find?_cons_of_neg _ hpa] at h ⊢
      exact ih h

/-- A statement never touches the data of a table that already exists:
whatever `find?` returned before still is returned after. -/
theorem runStmt_preserves_table {s : SchemaState} {stmt : SchemaStmt}
    {s2 : SchemaState} (h : runStmt s stmt = .ok s2) {t : Str}
    {d : Str × TableData} (hf : s.tables.find? (fun p => p.1 = t) = some d) :
    s2.tables.find? (fun p => p.1 = t) = some d := by
  cases stmt with
  | createTable ine name cols =>
    simp only [runStmt] at h
    by_cases he : tableExists s name = true
    · rw [if_pos he] at h
      by_cases hi : ine = true
      · rw [if_pos hi] at h
        injection h with h2
        subst h2
        exact hf
      · rw [if_neg hi] at h
        exact absurd h (by simp)
    · rw [if_neg he] at h
      injection h with h2
      subst h2
      exact find?_append_of_some _ _ hf
  | createIndex ine name table =>
    simp only [runStmt] at h
    by_cases he : indexExists s name = true
    · rw [if_pos he] at h
      by_cases hi : ine = true
      · rw [if_pos hi] at h
        injection h with h2
        subst h2
        exact hf
      · rw [if_neg hi] at h
        exact absurd h (by simp)
    · rw [if_neg he] at h
      injection h with h2
      subst h2
      exact hf

/-- An `IF NOT EXISTS` statement never errors. -/
theorem runStmt_ine_ok (s : SchemaState) (stmt : SchemaStmt)
    (h : stmtIfNotExists stmt = true) : exceptIsOk (runStmt s stmt) = true := by
  cases stmt with
  | createTable ine name cols =>
    simp only [stmtIfNotExists] at h
    subst h
    simp only [runStmt]
    by_cases he : tableExists s name = true
    · rw [if_pos he, if_pos trivial]
      rfl
    · rw [if_neg he]
      rfl
  | createIndex ine name table =>
    simp only [stmtIfNotExists] at h
    subst h
    simp only [runStmt]
    by_cases he : indexExists s name = true
    · rw [if_pos he, if_pos trivial]
      rfl
    · rw [if_neg he]
      rfl

/-- A script of `IF NOT EXISTS` statements never errors. -/
theorem runScript_ine_ok :
    ∀ (stmts : List SchemaStmt), (∀ st ∈ stmts, stmtIfNotExists st = true) →
      ∀ s, exceptIsOk (runScript stmts s) = true
  | [], _, s => rfl
  | stmt :: rest, h, s => by
    unfold runScript
    have h1 : exceptIsOk (runStmt s stmt) = true :=
      runStmt_ine_ok s stmt (h stmt (List.mem_cons_self _ _))
    cases hm : runStmt s stmt with
    | ok s2 =>
      exact runScript_ine_ok rest (fun st hst => h st (List.mem_cons_of_mem _ hst)) s2
    | error e =>
      rw [hm] at h1
      simp [exceptIsOk] at h1

/-- A script run preserves the `find?` result of every pre-existing
table. -/
theorem runScript_preserves_table :
    ∀ (stmts : List SchemaStmt) (s s2 : SchemaState),
      runScript stmts s = .ok s2 → ∀ (t : Str) (d : Str × TableData),
      s.tables.find? (fun p => p.1 = t) = some d →
      s2.tables.find? (fun p => p.1 = t) = some d
  | [], s, s2, h, t, d, hf => by
    unfold runScript at h
    cases h
    exact hf
  | stmt :: rest, s, s2, h, t, d, hf => by
    unfold runScript at h
    cases hm : runStmt s stmt with
    | ok s3 =>
      rw [hm] at h
      exact runScript_preserves_table rest s3 s2 h t d
        (runStmt_preserves_table hm hf)
    | error e =>
      rw [hm] at h
      cases h

/-- Claim C2 (amended): the schema initializer creates exactly the six
tables `memories, knowledge_base, entries, research, agent_chat,
error_patterns` (the seven curation tables are not created by it);
running it twice against the same fresh store produces the same schema;
it never raises a duplicate-table error on any store (every statement
is `IF NOT EXISTS`); and it never loses data — the contents of every
pre-existing table are preserved. -/
theorem C2_schema_init_amended :
    ((initSchema emptySchema).map schemaTableNames =
      .ok [str "memories", str "knowledge_base", str "entries", str "research",
           str "agent_chat", str "error_patterns"]) ∧
    ((initSchema emptySchema).bind initSchema = initSchema emptySchema) ∧
    (∀ s, exceptIsOk (initSchema s) = true) ∧
    (∀ (s : SchemaState) (t : Str) (d : Str × TableData),
      s.tables.find? (fun p => p.1 = t) = some d →
      (initSchema s).map (fun s2 => s2.tables.find? (fun p => p.1 = t)) =
        .ok (some d)) := by
  have hflags : ∀ st ∈ schemaScript, stmtIfNotExists st = true := by decide
  refine ⟨rfl, rfl, fun s => runScript_ine_ok schemaScript hflags s, ?_⟩
  intro s t d hf
  cases hm : initSchema s with
  | ok s2 =>
    show Except.ok (s2.tables.find? (fun p => p.1 = t)) = Except.ok (some d)
    rw [runScript_preserves_table schemaScript s s2 hm t d hf]
  | error e =>
    have := runScript_ine_ok schemaScript hflags s
    unfold initSchema at hm
    rw [hm] at this
    simp [exceptIsOk] at this

/-- Witness for `C2_schema_init_amended`: initializing a store that
already holds a `memories` row keeps that row. -/
theorem C2_schema_init_witness :
    exceptIsOk (initSchema ⟨[(str "memories",
        ⟨[str "id"], [[(str "id", str "1")]]⟩)], []⟩) = true ∧
    (initSchema ⟨[(str "memories", ⟨[str "id"], [[(str "id", str "1")]]⟩)], []⟩).map
      (fun s2 => s2.tables.find? (fun p => p.1 = str "memories")) =
      .ok (some (str "memories", ⟨[str "id"], [[(str "id", str "1")]]⟩)) :=
  ⟨C2_schema_init_amended.2.2.1 _,
   C2_schema_init_amended.2.2.2 _ (str "memories") _ (by decide)⟩

/-- `contains` on an append splits as a disjunction. -/
theorem contains_append_iff (l1 l2 : List RelNode) (x : RelNode) :
    (l1 ++ l2).contains x = true ↔ l1.contains x = true ∨ l2.contains x = true := by
  simp [List.contains, List.elem_iff, List.mem_append]

/-- `contains` on a singleton. -/
theorem contains_singleton_iff (a x : RelNode) :
    ([a] : List RelNode).contains x = true ↔ x = a := by
  simp [List.contains, List.elem_iff]

/-- The visited set only grows while processing rows. -/
theorem processRows_visited_mono (g : RelRow → RelNode) (mk : RelRow → RelatedEntry) :
    ∀ (rows : List RelRow) (v nx : List RelNode) (res : List RelatedEntry) (x : RelNode),
      v.contains x = true → (processRows g mk rows v nx res).1.contains x = true
  | [], _, _, _, _, h => h
  | r :: rest, v, nx, res, x, h => by
    unfold processRows
    split
    · exact processRows_visited_mono g mk rest v nx res x h
    · refine processRows_visited_mono g mk rest _ _ _ x ?_
      rw [contains_append_iff]
      exact .inl h

/-- After processing, the visited set is the old one plus the nodes of
the processed rows. -/
theorem processRows_visited_iff (g : RelRow → RelNode) (mk : RelRow → RelatedEntry) :
    ∀ (rows : List RelRow) (v nx : List RelNode) (res : List RelatedEntry) (x : RelNode),
      (processRows g mk rows v nx res).1.contains x = true ↔
        (v.contains x = true ∨ ∃ r ∈ rows, g r = x)
  | [], v, nx, res, x => by
    simp [processRows]
  | r :: rest, v, nx, res, x => by
    unfold processRows
    split
    · next hv =>
      rw [processRows_visited_iff g mk rest v nx res x]
      constructor
      · rintro (h | ⟨r2, hr2, hg⟩)
        · exact .inl h
        · exact .inr ⟨r2, List.mem_cons_of_mem _ hr2, hg⟩
      · rintro (h | ⟨r2, hr2, hg⟩)
        · exact .inl h
        · rcases List.mem_cons.mp hr2 with heq | hr2m
          · subst heq
            exact .inl (hg ▸ hv)
          · exact .inr ⟨r2, hr2m, hg⟩
    · next hv =>
      rw [processRows_visited_iff g mk rest _ _ _ x]
      rw [contains_append_iff]
      constructor
      · rintro ((h | h) | ⟨r2, hr2, hg⟩)
        · exact .inl h
        · exact .inr ⟨r, List.mem_cons_self _ _, ((contains_singleton_iff _ _).mp h).symm⟩
        · exact .inr ⟨r2, List.mem_cons_of_mem _ hr2, hg⟩
      · rintro (h | ⟨r2, hr2, hg⟩)
        · exact .inl (.inl h)
        · rcases List.mem_cons.mp hr2 with heq | hr2m
          · subst heq
            exact .inl (.inr ((contains_singleton_iff _ _).mpr hg.symm))
          · exact .inr ⟨r2, hr2m, hg⟩

/-- The nodes listed while processing rows are exactly the previously
listed ones plus the nodes of the rows that were not yet visited. -/
theorem processRows_res_iff (g : RelRow → RelNode) (mk : RelRow → RelatedEntry)
    (hgm : ∀ r, entryNode (mk r) = g r) :
    ∀ (rows : List RelRow) (v nx : List RelNode) (res : List RelatedEntry) (y : RelNode),
      (∃ e ∈ (processRows g mk rows v nx res).2.2, entryNode e = y) ↔
        ((∃ e ∈ res, entryNode e = y) ∨
          ((∃ r ∈ rows, g r = y) ∧ v.contains y = false))
  | [], v, nx, res, y => by
    simp only [processRows]
    constructor
    · exact fun h => .inl h
    · rintro (h | ⟨⟨r, hr, _⟩, _⟩)
      · exact h
      · exact absurd hr (List.not_mem_nil r)
  | r :: rest, v, nx, res, y => by
    unfold processRows
    split
    · next hv =>
      rw [processRows_res_iff g mk hgm rest v nx res y]
      constructor
      · rintro (h | ⟨⟨r2, hr2, hg⟩, hvy⟩)
        · exact .inl h
        · exact .inr ⟨⟨r2, List.mem_cons_of_mem _ hr2, hg⟩, hvy⟩
      · rintro (h | ⟨⟨r2, hr2, hg⟩, hvy⟩)
        · exact .inl h
        · rcases List.mem_cons.mp hr2 with heq | hm
          · subst heq
            rw [hg] at hv
            rw [hvy] at hv
            exact absurd hv (by simp)
          · exact .inr ⟨⟨r2, hm, hg⟩, hvy⟩
    · next hv =>
      rw [processRows_res_iff g mk hgm rest _ _ _ y]
      have hvb : v.contains (g r) = false := by
        cases hc : v.contains (g r)
        · rfl
        · exact absurd hc hv
      constructor
      · rintro (h | ⟨⟨r2, hr2, hg⟩, hvy⟩)
        · rcases h with ⟨e, he, hn⟩
          rcases List.mem_append.mp he with hres | hmk
          · exact .inl ⟨e, hres, hn⟩
          · have heq : e = mk r := by simpa using hmk
            subst heq
            rw [hgm r] at hn
            refine .inr ⟨⟨r, List.mem_cons_self _ _, hn⟩, ?_⟩
            rw [← hn]
            exact hvb
        · have hvyv : v.contains y = false := by
            cases hc : v.contains y
            · rfl
            · have hca : (v ++ [g r]).contains y = true :=
                (contains_append_iff _ _ _).mpr (.inl hc)
              rw [hvy] at hca
              exact absurd hca (by simp)
          exact .inr ⟨⟨r2, List.mem_cons_of_mem _ hr2, hg⟩, hvyv⟩
      · rintro (h | ⟨⟨r2, hr2, hg⟩, hvy⟩)
        · rcases h with ⟨e, he, hn⟩
          exact .inl ⟨e, List.mem_append_left _ he, hn⟩
        · by_cases hyg : y = g r
          · refine .inl ⟨mk r, List.mem_append_right _ (List.mem_singleton_self _), ?_⟩
            rw [hgm r]
            exact hyg.symm
          · rcases List.mem_cons.mp hr2 with heq | hm
            · subst heq
              exact absurd hg.symm hyg
            · refine .inr ⟨⟨r2, hm, hg⟩, ?_⟩
              cases hc : (v ++ [g r]).contains y
              · rfl
              · rcases (contains_append_iff _ _ _).mp hc with h1 | h1
                · rw [hvy] at h1
                  exact absurd h1 (by simp)
                · exact absurd ((contains_singleton_iff _ _).mp h1) hyg

/-- A `contains` that is `false` is not `true`. -/
theorem contains_ne_true_of_eq_false {l : List RelNode} {x : RelNode}
    (h : l.contains x = false) : ¬ l.contains x = true := by
  rw [h]
  simp

/-- Expanding one more node preserves the level invariant. -/
theorem expandNode_inv (db : List RelRow) (tf : List Str) (v0 : List RelNode)
    (st : List RelNode × List RelNode × List RelatedEntry) (n : RelNode)
    (h : LevelInv v0 st) : LevelInv v0 (expandNode db tf st n) := by
  obtain ⟨hmono, hres⟩ := h
  have hout := processRows_res_iff outNode outEntry (fun r => rfl)
      (outgoingRows db n tf) st.1 st.2.1 st.2.2
  have hin := processRows_res_iff inNode inEntry (fun r => rfl)
      (incomingRows db n tf)
      (processRows outNode outEntry (outgoingRows db n tf) st.1 st.2.1 st.2.2).1
      (processRows outNode outEntry (outgoingRows db n tf) st.1 st.2.1 st.2.2).2.1
      (processRows outNode outEntry (outgoingRows db n tf) st.1 st.2.1 st.2.2).2.2
  constructor
  · intro x hx
    show (processRows inNode inEntry _ _ _ _).1.contains x = true
    exact processRows_visited_mono _ _ _ _ _ _ x
      (processRows_visited_mono _ _ _ _ _ _ x (hmono x hx))
  · intro e he
    have hy := (hin (entryNode e)).mp ⟨e, he, rfl⟩
    rcases hy with ⟨e2, he2, hn2⟩ | ⟨⟨r, hrm, hry⟩, hnv⟩
    · have hy1 := (hout (entryNode e)).mp ⟨e2, he2, hn2⟩
      rcases hy1 with ⟨e3, he3, hn3⟩ | ⟨⟨r, hrm, hry⟩, hnv⟩
      · obtain ⟨hv0, hst1⟩ := hres e3 he3
        rw [hn3] at hv0 hst1
        exact ⟨hv0, processRows_visited_mono _ _ _ _ _ _ _
          (processRows_visited_mono _ _ _ _ _ _ _ hst1)⟩
      · constructor
        · cases hc : v0.contains (entryNode e)
          · rfl
          · exact absurd (hmono _ hc) (contains_ne_true_of_eq_false hnv)
        · have hs1 : (processRows outNode outEntry (outgoingRows db n tf)
              st.1 st.2.1 st.2.2).1.contains (entryNode e) = true :=
            (processRows_visited_iff _ _ _ _ _ _ _).mpr (.inr ⟨r, hrm, hry⟩)
          exact processRows_visited_mono _ _ _ _ _ _ _ hs1
    · constructor
      · have hst1 : st.1.contains (entryNode e) = false := by
          cases hc : st.1.contains (entryNode e)
          · rfl
          · exact absurd (processRows_visited_mono _ _ _ _ _ _ _ hc)
              (contains_ne_true_of_eq_false hnv)
        cases hc : v0.contains (entryNode e)
        · rfl
        · exact absurd (hmono _ hc) (contains_ne_true_of_eq_false hst1)
      · exact (processRows_visited_iff _ _ _ _ _ _ _).mpr (.inr ⟨r, hrm, hry⟩)

/-- A predicate preserved by each fold step holds of the fold. -/
theorem foldl_preserves {α β : Type} (P : β → Prop) (f : β → α → β)
    (hf : ∀ b a, P b → P (f b a)) : ∀ (l : List α) (b : β), P b → P (l.foldl f b)
  | [], _, h => h
  | a :: l, b, h => foldl_preserves P f hf l (f b a) (hf b a h)

/-- The level invariant holds of a whole level expansion. -/
theorem expandLevel_inv (db : List RelRow) (tf : List Str) (v current : List RelNode) :
    LevelInv v (expandLevel db tf v current) := by
  unfold expandLevel
  exact foldl_preserves (LevelInv v) (expandNode db tf)
    (fun st n h => expandNode_inv db tf v st n h) current (v, [], [])
    ⟨fun x h => h, fun e he => absurd he (List.not_mem_nil e)⟩

/-- The main loop invariant: at most `fuel` levels are produced, the
visited set only grows, every listed node was unvisited when the loop
was entered, and the levels are pairwise node-disjoint. -/
theorem bfsLoop_spec (db : List RelRow) (tf : List Str) :
    ∀ (fuel : Nat) (v current : List RelNode) (level : Nat),
      (bfsLoop db tf fuel v current level).1.length ≤ fuel ∧
      (∀ x, v.contains x = true →
        (bfsLoop db tf fuel v current level).2.contains x = true) ∧
      (∀ kl ∈ (bfsLoop db tf fuel v current level).1, ∀ e ∈ kl.2,
        v.contains (entryNode e) = false) ∧
      LevelsDisjoint (bfsLoop db tf fuel v current level).1
  | 0, v, current, level => by
    simp [bfsLoop, LevelsDisjoint]
  | fuel + 1, v, current, level => by
    obtain ⟨hmono, hres⟩ := expandLevel_inv db tf v current
    obtain ⟨ihlen, ihmono, ihfresh, ihdisj⟩ :=
      bfsLoop_spec db tf fuel (expandLevel db tf v current).1
        (expandLevel db tf v current).2.1 (level + 1)
    simp only [bfsLoop]
    by_cases hnext : (expandLevel db tf v current).2.1.isEmpty = true
    · rw [if_pos hnext]
      by_cases hres2 : (expandLevel db tf v current).2.2.isEmpty = true
      · rw [if_pos hres2]
        refine ⟨by simp, fun x hx => hmono x hx, by simp, by simp [LevelsDisjoint]⟩
      · rw [if_neg hres2]
        refine ⟨by simp, fun x hx => hmono x hx, ?_, ?_⟩
        · intro kl hkl e he
          have : kl = (level, (expandLevel db tf v current).2.2) := by simpa using hkl
          subst this
          exact (hres e he).1
        · simp [LevelsDisjoint]
    · rw [if_neg hnext]
      by_cases hres2 : (expandLevel db tf v current).2.2.isEmpty = true
      · rw [if_pos hres2]
        refine ⟨Nat.le_succ_of_le ihlen, fun x hx => ihmono x (hmono x hx), ?_, ihdisj⟩
        intro kl hkl e he
        have h1 := ihfresh kl hkl e he
        cases hc : v.contains (entryNode e)
        · rfl
        · exact absurd (hmono _ hc) (contains_ne_true_of_eq_false h1)
      · rw [if_neg hres2]
        refine ⟨by simpa using Nat.succ_le_succ ihlen,
          fun x hx => ihmono x (hmono x hx), ?_, ?_⟩
        · intro kl hkl e he
          rcases List.mem_cons.mp hkl with heq | hm
          · subst heq
            exact (hres e he).1
          · have h1 := ihfresh kl hm e he
            cases hc : v.contains (entryNode e)
            · rfl
            · exact absurd (hmono _ hc) (contains_ne_true_of_eq_false h1)
        · refine List.pairwise_cons.mpr ⟨?_, ihdisj⟩
          intro kl2 hkl2 e he e2 he2
          have h1 := (hres e he).2
          have h2 := ihfresh kl2 hkl2 e2 he2
          intro hcontra
          rw [hcontra] at h1
          rw [h1] at h2
          exact absurd h2 (by simp)

/-- Expanding a single-node level is one node expansion. -/
theorem expandLevel_single (db : List RelRow) (tf : List Str) (start : RelNode) :
    expandLevel db tf [start] [start] = expandNode db tf ([start], [], []) start := rfl

/-- Every bidirectional relationship into the start node (passing the
type filter) contributes its source to the first level, provided that
source is not the start node itself. -/
theorem level1_bidirectional (db : List RelRow) (tf : List Str) (start : RelNode)
    (r : RelRow) (hr : r ∈ db) (ht : r.targetTable = start.1)
    (hti : r.targetId = start.2) (hb : r.bidirectional = true)
    (htf : typeOk tf r.relType = true) (hne : inNode r ≠ start) :
    ∃ e ∈ (expandLevel db tf [start] [start]).2.2, entryNode e = inNode r := by
  have hrin : r ∈ incomingRows db start tf := by
    unfold incomingRows
    refine List.mem_filter.mpr ⟨hr, ?_⟩
    simp [ht, hti, hb, htf]
  have hin := processRows_res_iff inNode inEntry (fun r => rfl)
      (incomingRows db start tf)
      (processRows outNode outEntry (outgoingRows db start tf) [start] [] []).1
      (processRows outNode outEntry (outgoingRows db start tf) [start] [] []).2.1
      (processRows outNode outEntry (outgoingRows db start tf) [start] [] []).2.2
      (inNode r)
  have hout := processRows_res_iff outNode outEntry (fun r => rfl)
      (outgoingRows db start tf) [start] [] [] (inNode r)
  rw [expandLevel_single]
  show ∃ e ∈ (processRows inNode inEntry (incomingRows db start tf)
      (processRows outNode outEntry (outgoingRows db start tf) [start] [] []).1
      (processRows outNode outEntry (outgoingRows db start tf) [start] [] []).2.1
      (processRows outNode outEntry (outgoingRows db start tf) [start] [] []).2.2).2.2,
    entryNode e = inNode r
  apply hin.mpr
  by_cases hv : (processRows outNode outEntry (outgoingRows db start tf)
      [start] [] []).1.contains (inNode r) = true
  · left
    have hvi := (processRows_visited_iff outNode outEntry
      (outgoingRows db start tf) [start] [] [] (inNode r)).mp hv
    rcases hvi with hstart | ⟨r2, hr2, hg⟩
    · exact absurd ((contains_singleton_iff _ _).mp hstart) hne
    · refine hout.mpr (.inr ⟨⟨r2, hr2, hg⟩, ?_⟩)
      cases hc : ([start] : List RelNode).contains (inNode r)
      · rfl
      · exact absurd ((contains_singleton_iff _ _).mp hc) hne
  · right
    refine ⟨⟨r, hrin, rfl⟩, ?_⟩
    cases hc : (processRows outNode outEntry (outgoingRows db start tf)
        [start] [] []).1.contains (inNode r)
    · rfl
    · exact absurd hc hv

/-- Claim C7: `find_related` clamps the depth into `[1,3]`; the
breadth-first traversal produces at most three levels (and so
terminates even on cyclic graphs, the loop bound being independent of
the graph); a discovered node is listed only at the depth at which it
was first reached — the levels are pairwise node-disjoint and never
contain the source; and a `bidirectional=true` relationship into the
start node is traversed in reverse: its source appears at depth 1. -/
theorem C7_find_related (db : List RelRow) (entryTable : Str) (entryId : Int)
    (depth : Int) (rt : Option Str)
    (hT : ENTRY_TABLES.contains entryTable = true) :
    (findRelated db entryTable entryId depth rt =
      findRelated db entryTable entryId (max 1 (min 3 depth)) rt) ∧
    (resultLevels (findRelated db entryTable entryId depth rt)).length ≤ 3 ∧
    LevelsDisjoint (resultLevels (findRelated db entryTable entryId depth rt)) ∧
    (∀ kl ∈ resultLevels (findRelated db entryTable entryId depth rt),
      ∀ e ∈ kl.2, entryNode e ≠ (entryTable, entryId)) ∧
    (∀ r ∈ db, r.targetTable = entryTable → r.targetId = entryId →
      r.bidirectional = true → typeOk (typeFilter rt) r.relType = true →
      inNode r ≠ (entryTable, entryId) →
      ∃ l, (1, l) ∈ resultLevels (findRelated db entryTable entryId depth rt) ∧
        ∃ e ∈ l, entryNode e = inNode r) := by
  have hspec := bfsLoop_spec db (typeFilter rt) (max 1 (min 3 depth)).toNat
    [(entryTable, entryId)] [(entryTable, entryId)] 1
  have hle3 : (max 1 (min 3 depth)).toNat ≤ 3 := by
    have h1 : min 3 depth ≤ 3 := min_le_left _ _
    have h2 : max 1 (min 3 depth) ≤ 3 := max_le (by omega) h1
    omega
  refine ⟨?_, ?_, ?_, ?_, ?_⟩
  · have hclamp : max 1 (min 3 (max 1 (min 3 depth))) = max 1 (min 3 depth) := by
      simp only [max_def, min_def]
      split_ifs <;> omega
    unfold findRelated
    rw [hclamp]
  · simp only [findRelated, hT, Bool.not_true, Bool.false_eq_true, if_false,
      resultLevels]
    omega
  · simp only [findRelated, hT, Bool.not_true, Bool.false_eq_true, if_false,
      resultLevels]
    exact hspec.2.2.2
  · simp only [findRelated, hT, Bool.not_true, Bool.false_eq_true, if_false,
      resultLevels]
    intro kl hkl e he hcontra
    have h1 := hspec.2.2.1 kl hkl e he
    rw [hcontra] at h1
    have h2 : ([((entryTable : Str), (entryId : Int))] : List RelNode).contains
        (entryTable, entryId) = true := (contains_singleton_iff _ _).mpr rfl
    rw [h1] at h2
    exact absurd h2 (by simp)
  · intro r hr ht hti hb htf hne
    simp only [findRelated, hT, Bool.not_true, Bool.false_eq_true, if_false,
      resultLevels]
    obtain ⟨e0, he0, hn0⟩ := level1_bidirectional db (typeFilter rt)
      (entryTable, entryId) r hr ht hti hb htf hne
    have hfuel : ∃ k, (max 1 (min 3 depth)).toNat = k + 1 := by
      have h1 : (1 : Int) ≤ max 1 (min 3 depth) := le_max_left _ _
      refine ⟨(max 1 (min 3 depth)).toNat - 1, ?_⟩
      omega
    obtain ⟨k, hk⟩ := hfuel
    rw [hk]
    simp only [bfsLoop]
    have hne2 : (expandLevel db (typeFilter rt) [(entryTable, entryId)]
        [(entryTable, entryId)]).2.2.isEmpty = false := by
      cases hE : (expandLevel db (typeFilter rt) [(entryTable, entryId)]
          [(entryTable, entryId)]).2.2.isEmpty
      · rfl
      · rw [List.isEmpty_iff] at hE
        rw [hE] at he0
        exact absurd he0 (List.not_mem_nil _)
    rw [hne2]
    exact ⟨(expandLevel db (typeFilter rt) [(entryTable, entryId)]
      [(entryTable, entryId)]).2.2, List.mem_cons_self _ _, e0, he0, hn0⟩

/-- Witness for `C7_find_related`: the traversal of a cyclic graph from
node 1 with an out-of-range depth evaluates, clamps the depth, and
yields at most three pairwise node-disjoint levels. -/
theorem C7_find_related_witness :
    (findRelated cycleRels (str "memories") 1 5 none =
      findRelated cycleRels (str "memories") 1 (max 1 (min 3 5)) none) ∧
    (resultLevels (findRelated cycleRels (str "memories") 1 5 none)).length ≤ 3 ∧
    LevelsDisjoint (resultLevels (findRelated cycleRels (str "memories") 1 5 none)) :=
  ⟨(C7_find_related cycleRels (str "memories") 1 5 none (by decide)).1,
   (C7_find_related cycleRels (str "memories") 1 5 none (by decide)).2.1,
   (C7_find_related cycleRels (str "memories") 1 5 none (by decide)).2.2.1⟩
